import Mathlib

/-!
Verification development for the VPN monitor of the PVZ automation repository
(`vpn_monitor/monitor.py`).

The Python functions are shallowly embedded as executable Lean definitions:

* external command invocations (`subprocess.run` of `netbird`, `ping`, `curl`)
  are modelled by an environment that supplies, for each call site, the
  outcome of that call (`RunOutcome`): either a completed `CmdResult`
  (return code plus captured stdout/stderr as `List Char`), a
  `subprocess.TimeoutExpired`, or another exception;
* `re.search` for the two login-URL patterns
  `https://[^\s]+user_code=[A-Z0-9-]+` and
  `https://[^\s]+/device\?user_code=[A-Z0-9-]+` is implemented directly
  (leftmost start position, greedy `[^\s]+` with backtracking, greedy
  trailing `[A-Z0-9-]+`); `\s` is modelled by the ASCII whitespace class,
  and Python's `pat in s` substring test is `pyContains`;
* wall-clock time (`datetime.now`, `time.time`) is modelled by rational
  numbers of seconds supplied by the environment; `time.sleep` calls are
  accounted as fixed constants; ISO-format timestamp strings are modelled
  by the rational timestamp they denote;
* the JSON state file is modelled at the JSON-value level (`JValue`), with
  Python-dict semantics (insertion order of keys, later duplicate wins)
  for the `{**default_state, **state}` merge;
* code that catches every exception and returns a default is embedded as a
  total function over the outcome environment.
-/

namespace VpnMonitor

/-! ### Python string primitives

`isPySpace` is the ASCII part of Python's `\s` class, `codeChar` is the
character class `[A-Z0-9-]`, and `pyContains p l` is Python's `p in l`
substring test. -/

def isPySpace (c : Char) : Bool :=
  c = ' ' || c = '\t' || c = '\n' || c = '\r' || c = '\x0b' || c = '\x0c'

def codeChar (c : Char) : Bool :=
  ('A' ≤ c && c ≤ 'Z') || ('0' ≤ c && c ≤ '9') || c = '-'

def pyContains (p : List Char) : List Char → Bool
  | [] => p.isEmpty
  | l@(_ :: rest) => p.isPrefixOf l || pyContains p rest

/-- SubSeg p l means p occurs as a contiguous segment of l
(Python's substring containment, as a proposition). -/
def SubSeg (p l : List Char) : Prop := ∃ s t, l = s ++ p ++ t

/-! ### The login-URL regular expressions

`reSearch lit out` implements `re.search` of the pattern
`https:// [^\s]+ lit [A-Z0-9-]+` over `out`, returning the full matched
text (group 1 of the source patterns is the whole pattern).  `matchTail`
matches the literal `lit` followed by a greedy nonempty `[A-Z0-9-]+` run;
`plusThenLit` matches a greedy nonempty `[^\s]+` followed by `matchTail`,
preferring the longest `[^\s]+` (Python's backtracking order); `matchAt`
anchors the whole pattern at the current position; `reSearch` scans start
positions left to right. -/

def stripLit : List Char → List Char → Option (List Char)
  | [], l => some l
  | _ :: _, [] => none
  | p :: ps, c :: cs => if p = c then stripLit ps cs else none

def matchTail (lit : List Char) (l : List Char) : Option (List Char) :=
  match stripLit lit l with
  | some rest =>
    let run := rest.takeWhile codeChar
    if run.isEmpty then none else some (lit ++ run)
  | none => none

def plusThenLit (lit : List Char) : List Char → Option (List Char)
  | [] => none
  | c :: rest =>
    if isPySpace c then none
    else
      match plusThenLit lit rest with
      | some m => some (c :: m)
      | none => (matchTail lit rest).map (fun t => c :: t)

def schemeChars : List Char := "https://".data

def matchAt (lit : List Char) (l : List Char) : Option (List Char) :=
  match stripLit schemeChars l with
  | some rest => (plusThenLit lit rest).map (fun m => schemeChars ++ m)
  | none => none

def reSearch (lit : List Char) : List Char → Option (List Char)
  | [] => none
  | l@(_ :: rest) =>
    match matchAt lit l with
    | some m => some m
    | none => reSearch lit rest

/-- literal of the first source pattern (`user_code=`). -/
def urlPat1 : List Char := "user_code=".data

/-- literal of the second source pattern (`/device?user_code=`). -/
def urlPat2 : List Char := "/device?user_code=".data

/-- the two authorization markers tested by `"SSO login" in output or
"user_code" in output`. -/
def hasAuthMarker (out : List Char) : Bool :=
  pyContains "SSO login".data out || pyContains "user_code".data out

/-! ### External command model

A `subprocess.run` call either completes with a `CmdResult`, raises
`subprocess.TimeoutExpired` (`timeout`), or raises another exception such
as `FileNotFoundError` (`err`; the source only logs different messages for
the different exception classes, so they are collapsed). -/

structure CmdResult where
  returncode : Int
  stdout : List Char
  stderr : List Char
deriving DecidableEq

inductive RunOutcome where
  | ok (r : CmdResult)
  | timeout
  | err
deriving DecidableEq

/-! ### Status prober (`check_vpn_netbird_status`, `check_vpn_connectivity`,
`is_vpn_connected`) -/

/-- `check_vpn_netbird_status`: run `netbird status`; true iff the call
completed with return code 0 and the lowercased stdout contains
"connected" or "online"; every exception path returns false. -/
def check_vpn_netbird_status (o : RunOutcome) : Bool :=
  match o with
  | RunOutcome.ok r =>
    if r.returncode = 0 then
      let output := r.stdout.map Char.toLower
      pyContains "connected".data output || pyContains "online".data output
    else false
  | RunOutcome.timeout => false
  | RunOutcome.err => false

def VPN_HOSTS : List String :=
  ["wms-clickhouse.prod.um.internal", "dwh-clickhouse.prod.um.internal"]

/-- the `for host in VPN_HOSTS` loop of `check_vpn_connectivity`,
instrumented with the list of hosts actually pinged: return at the first
host whose `ping` completes with return code 0; a non-zero code, a
timeout or an exception falls through to the next host. -/
def pingLoop (env : String → RunOutcome) : List String → Bool × List String
  | [] => (false, [])
  | h :: rest =>
    match env h with
    | RunOutcome.ok r =>
      if r.returncode = 0 then (true, [h])
      else
        let p := pingLoop env rest
        (p.1, h :: p.2)
    | _ =>
      let p := pingLoop env rest
      (p.1, h :: p.2)

def check_vpn_connectivity (env : String → RunOutcome) : Bool :=
  (pingLoop env VPN_HOSTS).1

/-- whether the `ping` of host h completes with return code 0 under env. -/
def responds (env : String → RunOutcome) (h : String) : Bool :=
  match env h with
  | RunOutcome.ok r => r.returncode = 0
  | _ => false

/-- outcomes of the two external checks used by one `is_vpn_connected`
call: the `netbird status` invocation and the `ping` of each host. -/
structure ProbeEnv where
  status : RunOutcome
  ping : String → RunOutcome

/-- `is_vpn_connected`: both checks must pass. -/
def is_vpn_connected (e : ProbeEnv) : Bool :=
  check_vpn_netbird_status e.status && check_vpn_connectivity e.ping

/-! ### `get_auth_url` and `reconnect_vpn` -/

/-- `get_auth_url`: run `netbird login`; search the combined
stdout+stderr first for the `user_code=` pattern, then for the
`/device?user_code=` pattern; every exception path returns none. -/
def get_auth_url (o : RunOutcome) : Option (List Char) :=
  match o with
  | RunOutcome.ok r =>
    let output := r.stdout ++ r.stderr
    match reSearch urlPat1 output with
    | some u => some u
    | none => reSearch urlPat2 output
  | RunOutcome.timeout => none
  | RunOutcome.err => none

/-- outcomes of the external calls of one iteration of the retry loop of
`reconnect_vpn`: the `netbird down` call, the `netbird up` call, and the
probe environment for the `is_vpn_connected` check of step 5. -/
structure AttemptEnv where
  down : RunOutcome
  up : RunOutcome
  probe : ProbeEnv

/-- outcomes of all external calls of one `reconnect_vpn` invocation:
the per-attempt environments (indexed by 1-based attempt number), plus the
outcome of the `netbird login` call made from the timeout handler and of
the one made after the loop. -/
structure ReconnectEnv where
  att : ℕ → AttemptEnv
  loginTimeout : RunOutcome
  loginFinal : RunOutcome

/-- observable result of `reconnect_vpn`: the returned triple
`(success, attempt_number, auth_url)`, instrumented with the number of
down/up attempt iterations entered (`cycles`) and the total seconds spent
in `time.sleep` calls (`sleepSecs`). -/
structure ReconnectResult where
  success : Bool
  attempt : ℕ
  authUrl : Option (List Char)
  cycles : ℕ
  sleepSecs : ℕ
deriving DecidableEq

/-- the `for attempt in range(1, max_retries + 1)` loop of
`reconnect_vpn`.  `attempt` is the current 1-based attempt number and
`rem + 1` the number of attempts still available; `cycles` and `slept`
accumulate the instrumentation.  Each iteration: run `netbird down` (a
non-zero code is only logged), sleep 2s, run `netbird up`; if the
combined output contains an authorization marker and the `user_code=`
pattern matches, return immediately with the extracted URL; if the up
call exited non-zero, continue to the next attempt; otherwise sleep 5s,
probe, and return success if connected.  A `TimeoutExpired` on the down
or up call jumps to the handler that, on the last attempt only, tries
`netbird login`.  A fall-through that reaches the bottom of the loop
body sleeps 3s before the next attempt, but the `continue` taken on a
non-zero up exit skips that sleep.  After the loop
the `auth_url` local is necessarily still `None` (every assignment to it
returns immediately), so `get_auth_url` is invoked once more.

`reconnectStep` is the body of one iteration of the retry loop, for attempt number
`attempt`: the seconds slept before the iteration ends (including, on
fall-through paths that reach the bottom of the loop body, the
inter-attempt sleep), paired with `some (success, auth_url)` when the
iteration returns from `reconnect_vpn` and `none` when it falls through
to the next attempt. -/
def reconnectStep (env : ReconnectEnv) (maxRetries attempt : ℕ) :
    ℕ × Option (Bool × Option (List Char)) :=
  let ae := env.att attempt
  let onTimeout : Option (List Char) :=
    if attempt = maxRetries then get_auth_url env.loginTimeout else none
  let inter : ℕ := if attempt < maxRetries then 3 else 0
  match ae.down with
  | RunOutcome.timeout =>
    match onTimeout with
    | some u => (0, some (false, some u))
    | none => (0 + inter, none)
  | RunOutcome.err => (0 + inter, none)
  | RunOutcome.ok _ =>
    match ae.up with
    | RunOutcome.timeout =>
      match onTimeout with
      | some u => (2, some (false, some u))
      | none => (2 + inter, none)
    | RunOutcome.err => (2 + inter, none)
    | RunOutcome.ok ru =>
      let output := ru.stdout ++ ru.stderr
      match (if hasAuthMarker output then reSearch urlPat1 output else none) with
      | some u => (2, some (false, some u))
      | none =>
        if ru.returncode ≠ 0 then (2, none)
        else if is_vpn_connected ae.probe then (7, some (true, none))
        else (7 + inter, none)

def reconnectGo (env : ReconnectEnv) (maxRetries : ℕ) :
    ℕ → ℕ → ℕ → ℕ → ReconnectResult
  | _, 0, cycles, slept =>
    { success := false, attempt := maxRetries,
      authUrl := get_auth_url env.loginFinal,
      cycles := cycles, sleepSecs := slept }
  | attempt, rem + 1, cycles, slept =>
    match reconnectStep env maxRetries attempt with
    | (s, some (succ, au)) =>
      { success := succ, attempt := attempt, authUrl := au,
        cycles := cycles + 1, sleepSecs := slept + s }
    | (s, none) =>
      reconnectGo env maxRetries (attempt + 1) rem (cycles + 1) (slept + s)

/-- `reconnect_vpn(max_retries=3)`. -/
def reconnect_vpn (env : ReconnectEnv) (max_retries : ℕ := 3) : ReconnectResult :=
  reconnectGo env max_retries 1 max_retries 0 0

/-! ### Notifier (`send_telegram_alert`)

One iteration of the retry loop runs `curl` and parses its stdout as
JSON; the distinguishable outcomes are collapsed into
`TransportResult`: a parsed response whose `ok` field is truthy
(`response true`), a parsed response that is not (`response false`,
covering a missing `ok` field via `.get('ok', False)`), an unparsable
response (`badJson`), a `TimeoutExpired`, or another exception.  Only
`response true` stops the loop with success; every other outcome sleeps
and retries.  `dur k` is the wall-clock time the attempt `k` transport
call itself consumed (the `0 ≤ dur k` field records that durations are
physically nonnegative; it is what bounds the loop). -/

inductive TransportResult where
  | response (ok : Bool)
  | badJson
  | timeout
  | exn
deriving DecidableEq

structure SendEnv where
  result : ℕ → TransportResult
  dur : ℕ → ℚ
  dur_nonneg : ∀ k, 0 ≤ dur k

/-- observable result of `send_telegram_alert`: the returned boolean,
the final value of the `attempt` counter, and the list of the durations
of the `time.sleep(delay)` calls performed, in order. -/
structure SendResult where
  delivered : Bool
  attempts : ℕ
  sleeps : List ℚ
deriving DecidableEq

/-- the `while True` loop of `send_telegram_alert`: at the top of
iteration `attempt` (1-based), `elapsed` is `time.time() - start_time`
and `delay` the current backoff value; if `elapsed > maxTime` return
failure, otherwise run the transport; on `ok: true` return success,
otherwise sleep `delay` seconds and continue with
`delay = min(delay * 1.5, 60)`.  The loop terminates because each
iteration advances `elapsed` by at least the slept `delay ≥ 10`. -/
def sendLoop (env : SendEnv) (maxTime : ℚ) (elapsed delay : ℚ)
    (hd : 10 ≤ delay) (attempt : ℕ) : SendResult :=
  if elapsed > maxTime then
    { delivered := false, attempts := attempt, sleeps := [] }
  else
    match env.result attempt with
    | TransportResult.response true =>
      { delivered := true, attempts := attempt, sleeps := [] }
    | _ =>
      let r := sendLoop env maxTime (elapsed + env.dur attempt + delay)
        (min (delay * (3 / 2)) 60)
        (le_min (by linarith) (by norm_num)) (attempt + 1)
      { delivered := r.delivered, attempts := r.attempts,
        sleeps := delay :: r.sleeps }
termination_by (⌈maxTime + 1 - elapsed⌉).toNat
decreasing_by
  rename_i hnot
  have h0 : elapsed ≤ maxTime := not_lt.mp hnot
  have hdur : 0 ≤ env.dur attempt := env.dur_nonneg attempt
  have h2 : ⌈maxTime + 1 - (elapsed + env.dur attempt + delay)⌉
      ≤ ⌈maxTime + 1 - elapsed - (10 : ℤ)⌉ := by
    apply Int.ceil_le_ceil
    push_cast
    linarith
  rw [Int.ceil_sub_int] at h2
  have h3 : (1 : ℤ) ≤ ⌈maxTime + 1 - elapsed⌉ := by
    have h4 : (1 : ℚ) ≤ maxTime + 1 - elapsed := by linarith [h0]
    calc (1 : ℤ) = ⌈(1 : ℚ)⌉ := by norm_num
    _ ≤ ⌈maxTime + 1 - elapsed⌉ := Int.ceil_le_ceil h4
  omega

/-- `send_telegram_alert(message, max_time=900)`.  `hasCreds` models the
presence of `TELEGRAM_BOT_TOKEN` and `TELEGRAM_CHAT_ID`; without them the
function returns `False` at once.  The message text does not influence
control flow and is not modelled.  The loop starts with `attempt = 1`
after the first `attempt += 1`, `elapsed = 0`, `delay = 10`. -/
def send_telegram_alert (env : SendEnv) (hasCreds : Bool)
    (max_time : ℚ := 900) : SendResult :=
  if hasCreds then sendLoop env max_time 0 10 (by norm_num) 1
  else { delivered := false, attempts := 0, sleeps := [] }

/-- the backoff value slept after the (j+1)-th failed attempt
(closed form of the `delay = min(delay * 1.5, 60)` recurrence). -/
def delaySeq (j : ℕ) : ℚ := min (10 * (3 / 2 : ℚ) ^ j) 60

/-- `elapsedAt env j`: the value of `time.time() - start_time` measured
at the top of attempt `j + 1`, i.e. after `j` failed attempts and their
backoff sleeps. -/
def elapsedAt (env : SendEnv) : ℕ → ℚ
  | 0 => 0
  | j + 1 => elapsedAt env j + env.dur (j + 1) + delaySeq j

/-! ### State persistence (`load_state`, `save_state`)

The state file is modelled at the JSON-value level: `save_state` writes
the JSON value of the state dict, `load_state` reads the file back.  A
file that does not exist is `absent`; a file whose open/read/parse raises
is `corrupt`.  JSON objects are association lists; `pyDict` normalises
one to Python-dict semantics (key order = first occurrence, value = last
occurrence), which is what `json.load` produces and what the
`{**default_state, **state}` merge builds. -/

inductive JValue where
  | null
  | bool (b : Bool)
  | num (n : Int)
  | str (s : String)
  | arr (elems : List JValue)
  | obj (kvs : List (String × JValue))

inductive FileState where
  | absent
  | corrupt
  | json (v : JValue)

/-- keys of an association list, first occurrence order. -/
def dictKeys : List (String × JValue) → List String
  | [] => []
  | (k, _) :: rest => k :: (dictKeys rest).filter (fun k2 => k2 != k)

/-- value of a key: the last binding wins, as in a Python dict built by
successive insertions. -/
def dictGet (l : List (String × JValue)) (k : String) : Option JValue :=
  l.reverse.lookup k

/-- normalise an association list to Python-dict semantics. -/
def pyDict (l : List (String × JValue)) : List (String × JValue) :=
  (dictKeys l).map (fun k => (k, (dictGet l k).getD JValue.null))

/-- the `default_state` dict of `load_state`, as a JSON object. -/
def default_state_kvs : List (String × JValue) :=
  [("last_check", JValue.null),
   ("last_status", JValue.str "unknown"),
   ("last_notification_time", JValue.null),
   ("reconnect_count", JValue.num 0),
   ("consecutive_failures", JValue.num 0)]

/-- `save_state`: write the state dict as JSON (a write error is only
logged; the claims below address the successful write). -/
def save_state (st : List (String × JValue)) : FileState :=
  FileState.json (JValue.obj st)

/-- `load_state`: defaults when the file is absent; otherwise parse and
return `{**default_state, **state}`; any exception — unreadable file,
JSON parse error, or the `TypeError` raised by `{**state}` when the
parsed value is not a dict — yields the defaults. -/
def load_state (fs : FileState) : List (String × JValue) :=
  match fs with
  | FileState.absent => default_state_kvs
  | FileState.corrupt => default_state_kvs
  | FileState.json (JValue.obj kvs) => pyDict (default_state_kvs ++ kvs)
  | FileState.json _ => default_state_kvs

/-- a fully-populated state record of the persisted types: timestamps as
ISO strings or `None`, status a string, counters integers. -/
structure MonitorRecord where
  last_check : Option String
  last_status : String
  last_notification_time : Option String
  reconnect_count : Int
  consecutive_failures : Int
deriving DecidableEq

def optStr : Option String → JValue
  | none => JValue.null
  | some s => JValue.str s

/-- the state dict a `MonitorRecord` denotes, in the key order of
`default_state`. -/
def recordKvs (r : MonitorRecord) : List (String × JValue) :=
  [("last_check", optStr r.last_check),
   ("last_status", JValue.str r.last_status),
   ("last_notification_time", optStr r.last_notification_time),
   ("reconnect_count", JValue.num r.reconnect_count),
   ("consecutive_failures", JValue.num r.consecutive_failures)]

def stateKeys : List String :=
  ["last_check", "last_status", "last_notification_time",
   "reconnect_count", "consecutive_failures"]

/-! ### The main routine

`datetime.now()` is modelled as a rational timestamp `now` supplied per
invocation (seconds; the few calls within one run are close enough
together that the claims treated here do not distinguish them).
`isoformat`/`fromisoformat` round-trip, so `last_notification_time` is
carried as the `Option ℚ` timestamp it encodes.  Telegram message
formatting (`format_telegram_message`) only builds the text, so a sent
notification is recorded as its event type. -/

structure MonState where
  last_check : Option ℚ
  last_status : String
  last_notification_time : Option ℚ
  reconnect_count : Int
  consecutive_failures : Int
deriving DecidableEq

/-- the defaults of `load_state`, at the state-machine level. -/
def default_state : MonState :=
  { last_check := none, last_status := "unknown",
    last_notification_time := none,
    reconnect_count := 0, consecutive_failures := 0 }

/-- `should_send_notification(state, cooldown_minutes=30)`: true when no
notification was ever sent, or when at least `cooldown` minutes have
elapsed since the recorded one.  (The source also returns true when the
recorded timestamp fails to parse; a stored timestamp is modelled by the
time it denotes, so that branch has no counterpart here.) -/
def should_send_notification (st : MonState) (now : ℚ)
    (cooldown_minutes : ℚ := 30) : Bool :=
  match st.last_notification_time with
  | none => true
  | some t => decide (cooldown_minutes ≤ (now - t) / 60)

inductive NotifEvent where
  | disconnect
  | recovered
  | reconnectSuccess
  | reconnectFailure
  | authRequired
deriving DecidableEq

/-- outcomes of all external calls of one `main()` invocation: the
initial probe, the reconnect environment (used only when the probe fails
and the previous status is not `auth_required`), the `netbird login`
outcome of the `auth_required` re-extraction branch, and the clock. -/
structure MainEnv where
  probe : ProbeEnv
  recon : ReconnectEnv
  login : RunOutcome
  now : ℚ

structure MainResult where
  exitCode : ℕ
  state : MonState
  notifs : List NotifEvent
deriving DecidableEq

/-- `main()`, from the loaded state to the saved state, the exit code,
and the notifications sent (in order).  Mirrors the branch structure of
the source: the connected branch with its recovered notification; the
`auth_required` branch that only re-extracts a fresh SSO URL; and the
reconnect branch with its disconnect notification, `reconnect_vpn`
call, and success / auth-required / failure outcomes. -/
def mainRun (env : MainEnv) (st0 : MonState) : MainResult :=
  let vpn_connected := is_vpn_connected env.probe
  let previous_status := st0.last_status
  if vpn_connected then
    let step :=
      if previous_status = "disconnected" ∨ previous_status = "auth_required" then
        ({ st0 with last_notification_time := some env.now,
                    consecutive_failures := 0 },
         [NotifEvent.recovered])
      else (st0, [])
    let st2 := { step.1 with last_status := "connected", reconnect_count := 0 }
    { exitCode := 0, state := { st2 with last_check := some env.now },
      notifs := step.2 }
  else
    let can_send_notification := should_send_notification st0 env.now 30
    if previous_status = "auth_required" then
      let step :=
        match get_auth_url env.login with
        | some _ =>
          if can_send_notification then
            ({ st0 with last_notification_time := some env.now },
             [NotifEvent.authRequired])
          else (st0, [])
        | none => (st0, [])
      let st2 := { step.1 with
        consecutive_failures := step.1.consecutive_failures + 1 }
      { exitCode := 1, state := { st2 with last_check := some env.now },
        notifs := step.2 }
    else
      let step :=
        if can_send_notification ∧ previous_status ≠ "disconnected" then
          ({ st0 with last_notification_time := some env.now },
           [NotifEvent.disconnect])
        else (st0, [])
      let r := reconnect_vpn env.recon 3
      if r.success then
        let st2 := { step.1 with
          last_notification_time := some env.now,
          last_status := "connected",
          reconnect_count := step.1.reconnect_count + 1,
          consecutive_failures := 0 }
        { exitCode := 1, state := { st2 with last_check := some env.now },
          notifs := step.2 ++ [NotifEvent.reconnectSuccess] }
      else
        match r.authUrl with
        | some _ =>
          let st2 :=
            if can_send_notification then
              { step.1 with last_notification_time := some env.now }
            else step.1
          let st3 := { st2 with
            last_status := "auth_required",
            consecutive_failures := st2.consecutive_failures + 1 }
          { exitCode := 1, state := { st3 with last_check := some env.now },
            notifs := step.2 ++
              (if can_send_notification then [NotifEvent.authRequired] else []) }
        | none =>
          let st2 :=
            if can_send_notification then
              { step.1 with last_notification_time := some env.now }
            else step.1
          let st3 := { st2 with
            last_status := "disconnected",
            consecutive_failures := st2.consecutive_failures + 1 }
          { exitCode := 1, state := { st3 with last_check := some env.now },
            notifs := step.2 ++
              (if can_send_notification then [NotifEvent.reconnectFailure] else []) }

/-- a sequence of monitor invocations starting from the default persisted
record, threading the saved state of each run into the next. -/
def runSeq (envs : List MainEnv) : MonState :=
  envs.foldl (fun s e => (mainRun e s).state) default_state

/-- the statuses a run can leave behind (or the initial default). -/
def StatusReachable (s : MonState) : Prop :=
  s.last_status = "connected" ∨ s.last_status = "unknown" ∨
  s.last_status = "disconnected" ∨ s.last_status = "auth_required"

/-- the run invariant: only the four statuses occur, and a connected (or
still-default) record carries a zero failure counter. -/
def MonInv (s : MonState) : Prop :=
  StatusReachable s ∧
  ((s.last_status = "connected" ∨ s.last_status = "unknown") →
    s.consecutive_failures = 0)

/-! ### Concrete environments used by the witnesses and counterexamples -/

/-- probe environment under which the VPN is up: `netbird status` exits 0
and prints "connected", the first ping succeeds. -/
def exProbeUp : ProbeEnv :=
  { status := RunOutcome.ok ⟨0, "connected".data, []⟩,
    ping := fun _ => RunOutcome.ok ⟨0, [], []⟩ }

/-- probe environment under which everything times out, so the VPN is down. -/
def exProbeDown : ProbeEnv :=
  { status := RunOutcome.timeout, ping := fun _ => RunOutcome.timeout }

/-- reconnect environment in which every external call raises. -/
def exReconFail : ReconnectEnv :=
  { att := fun _ => { down := RunOutcome.err, up := RunOutcome.err, probe := exProbeDown },
    loginTimeout := RunOutcome.err, loginFinal := RunOutcome.err }

/-- reconnect environment in which attempt 1 succeeds: down and up exit 0
with unremarkable output and the post-up probe sees the VPN up. -/
def exReconOk : ReconnectEnv :=
  { att := fun _ =>
      { down := RunOutcome.ok ⟨0, [], []⟩,
        up := RunOutcome.ok ⟨0, "ok".data, []⟩,
        probe := exProbeUp },
    loginTimeout := RunOutcome.err, loginFinal := RunOutcome.err }

/-- reconnect environment in which attempt 1's `netbird up` prints a
login URL. -/
def exReconAuth : ReconnectEnv :=
  { att := fun _ =>
      { down := RunOutcome.ok ⟨0, [], []⟩,
        up := RunOutcome.ok ⟨0, "See https://a.io/d?user_code=AB-1 now".data, []⟩,
        probe := exProbeDown },
    loginTimeout := RunOutcome.err, loginFinal := RunOutcome.err }

/-- reconnect environment in which attempt 1's `netbird up` mentions
"SSO login" but prints no extractable URL, and exits non-zero. -/
def exReconMarkerNoUrl : ReconnectEnv :=
  { att := fun _ =>
      { down := RunOutcome.ok ⟨0, [], []⟩,
        up := RunOutcome.ok ⟨1, "SSO login required".data, []⟩,
        probe := exProbeDown },
    loginTimeout := RunOutcome.err, loginFinal := RunOutcome.err }

/-- main-routine environment: VPN up, one minute after a notification. -/
def envC1 : MainEnv :=
  { probe := exProbeUp, recon := exReconFail, login := RunOutcome.err, now := 60 }

/-- a persisted state one minute after a notification was sent while
disconnected. -/
def stC1 : MonState :=
  { last_check := none, last_status := "disconnected",
    last_notification_time := some 0,
    reconnect_count := 0, consecutive_failures := 5 }

/-- main-routine environment: initial probe down, reconnect succeeds. -/
def envC2 : MainEnv :=
  { probe := exProbeDown, recon := exReconOk, login := RunOutcome.err, now := 0 }

/-- main-routine environment: VPN up, nothing else consulted. -/
def envC3 : MainEnv :=
  { probe := exProbeUp, recon := exReconFail, login := RunOutcome.err, now := 0 }

/-- main-routine environment: VPN down, reconnect fails, one minute
after a notification. -/
def envC1w : MainEnv :=
  { probe := exProbeDown, recon := exReconFail, login := RunOutcome.err, now := 60 }

/-- transport environment whose first attempt is acknowledged `ok: true`
instantly. -/
def envC6 : SendEnv :=
  { result := fun _ => TransportResult.response true,
    dur := fun _ => 0, dur_nonneg := fun _ => le_refl 0 }

end VpnMonitor

namespace VpnMonitor

/-! ## Supporting lemmas: substring and pattern-matching facts -/

theorem stripLit_some (p : List Char) :
    ∀ l r, stripLit p l = some r → l = p ++ r := by
  induction p with
  | nil =>
    intro l r h
    simp only [stripLit, Option.some.injEq] at h
    simp [h]
  | cons a as ih =>
    intro l r h
    cases l with
    | nil => simp [stripLit] at h
    | cons c cs =>
      simp only [stripLit] at h
      split at h
      · rename_i hac
        subst hac
        simpa using ih cs r h
      · exact absurd h (by simp)

theorem subseg_cons {p l : List Char} (c : Char) :
    SubSeg p l → SubSeg p (c :: l) := by
  rintro ⟨s, t, rfl⟩
  exact ⟨c :: s, t, by simp⟩

theorem matchTail_subseg {lit l t : List Char} :
    matchTail lit l = some t → SubSeg lit l := by
  intro h
  unfold matchTail at h
  cases hs : stripLit lit l with
  | none => rw [hs] at h; exact absurd h (by simp)
  | some rest =>
    exact ⟨[], rest, by simpa using stripLit_some lit l rest hs⟩

theorem plusThenLit_subseg {lit : List Char} :
    ∀ l m, plusThenLit lit l = some m → SubSeg lit l := by
  intro l
  induction l with
  | nil => intro m h; simp [plusThenLit] at h
  | cons c rest ih =>
    intro m h
    simp only [plusThenLit] at h
    split at h
    · exact absurd h (by simp)
    · cases hr : plusThenLit lit rest with
      | some m2 => exact subseg_cons c (ih m2 hr)
      | none =>
        rw [hr] at h
        simp only [Option.map_eq_some'] at h
        obtain ⟨t, ht, -⟩ := h
        exact subseg_cons c (matchTail_subseg ht)

theorem matchAt_subseg {lit l m : List Char} :
    matchAt lit l = some m → SubSeg lit l := by
  intro h
  unfold matchAt at h
  cases hs : stripLit schemeChars l with
  | none => rw [hs] at h; exact absurd h (by simp)
  | some rest =>
    rw [hs] at h
    simp only [Option.map_eq_some'] at h
    obtain ⟨m2, hm2, -⟩ := h
    obtain ⟨s, t, hst⟩ := plusThenLit_subseg rest m2 hm2
    exact ⟨schemeChars ++ s, t,
      by rw [stripLit_some schemeChars l rest hs, hst]; simp⟩

theorem reSearch_subseg {lit : List Char} :
    ∀ l m, reSearch lit l = some m → SubSeg lit l := by
  intro l
  induction l with
  | nil => intro m h; simp [reSearch] at h
  | cons c rest ih =>
    intro m h
    simp only [reSearch] at h
    cases hm : matchAt lit (c :: rest) with
    | some m2 => exact matchAt_subseg hm
    | none =>
      rw [hm] at h
      exact subseg_cons c (ih m h)

theorem isPrefixOf_append_self :
    ∀ p t : List Char, p.isPrefixOf (p ++ t) = true := by
  intro p
  induction p with
  | nil => intro t; simp [List.isPrefixOf]
  | cons a as ih => intro t; simp [List.isPrefixOf, ih]

theorem pyContains_append :
    ∀ (s p t : List Char), pyContains p (s ++ p ++ t) = true := by
  intro s
  induction s with
  | nil =>
    intro p t
    cases p with
    | nil =>
      cases t with
      | nil => rfl
      | cons c cs => simp [pyContains]
    | cons a as =>
      simp only [List.nil_append, List.cons_append, pyContains, List.append_eq]
      have h1 : (a :: as).isPrefixOf (a :: (as ++ t)) = true := by
        have h2 := isPrefixOf_append_self (a :: as) t
        rwa [List.cons_append] at h2
      rw [h1]
      simp
  | cons c s ih =>
    intro p t
    simp only [List.cons_append, pyContains, List.append_eq]
    rw [ih p t]
    simp

theorem pyContains_of_subseg {p l : List Char} :
    SubSeg p l → pyContains p l = true := by
  rintro ⟨s, t, rfl⟩
  exact pyContains_append s p t

/-- any match of the `user_code=` pattern forces the `"user_code" in
output` marker test to succeed. -/
theorem marker_of_url {out u : List Char} :
    reSearch urlPat1 out = some u → hasAuthMarker out = true := by
  intro h
  obtain ⟨s, t, hst⟩ := reSearch_subseg out u h
  have hsub : SubSeg "user_code".data out := by
    refine ⟨s, '=' :: t, ?_⟩
    rw [hst]
    have : urlPat1 = "user_code".data ++ ['='] := rfl
    rw [this]
    simp
  unfold hasAuthMarker
  rw [pyContains_of_subseg hsub]
  simp

/-! ### Reconnect-loop facts -/

theorem reconnectStep_sleep_le (env : ReconnectEnv) (m a : ℕ) :
    (reconnectStep env m a).1 ≤ 10 := by
  simp only [reconnectStep]
  cases hdown : (env.att a).down with
  | timeout =>
    dsimp only
    cases hOT : (if a = m then get_auth_url env.loginTimeout else none) with
    | some u => simp
    | none =>
      dsimp only
      split <;> simp
  | err =>
    dsimp only
    split <;> simp
  | ok rd =>
    dsimp only
    cases hup : (env.att a).up with
    | timeout =>
      dsimp only
      cases hOT : (if a = m then get_auth_url env.loginTimeout else none) with
      | some u => simp
      | none =>
        dsimp only
        split <;> simp
    | err =>
      dsimp only
      split <;> simp
    | ok ru =>
      dsimp only
      split
      · simp
      · split
        · simp
        · split
          · simp
          · split <;> simp

theorem reconnectGo_cycles_ge (env : ReconnectEnv) (m : ℕ) :
    ∀ rem attempt cycles slept,
      cycles ≤ (reconnectGo env m attempt rem cycles slept).cycles := by
  intro rem
  induction rem with
  | zero => intro a c s; simp [reconnectGo]
  | succ r ih =>
    intro a c s
    simp only [reconnectGo]
    rcases hstep : reconnectStep env m a with ⟨sl, os⟩
    cases os with
    | none =>
      simp only
      exact le_trans (Nat.le_succ c) (ih (a + 1) (c + 1) _)
    | some pr =>
      rcases pr with ⟨succ, au⟩
      simp only
      omega

theorem reconnectGo_bounds (env : ReconnectEnv) (m : ℕ) :
    ∀ rem attempt cycles slept,
      (reconnectGo env m attempt rem cycles slept).cycles ≤ cycles + rem ∧
      (reconnectGo env m attempt rem cycles slept).sleepSecs ≤ slept + 10 * rem := by
  intro rem
  induction rem with
  | zero => intro a c s; simp [reconnectGo]
  | succ r ih =>
    intro a c s
    have hsl : (reconnectStep env m a).1 ≤ 10 := reconnectStep_sleep_le env m a
    simp only [reconnectGo]
    rcases hstep : reconnectStep env m a with ⟨sl, os⟩
    rw [hstep] at hsl
    simp only at hsl
    cases os with
    | none =>
      simp only
      obtain ⟨h1, h2⟩ := ih (a + 1) (c + 1) (s + sl)
      constructor
      · omega
      · omega
    | some pr =>
      rcases pr with ⟨succ, au⟩
      simp only
      omega

theorem reconnectGo_cycles_ge_one (env : ReconnectEnv) (m : ℕ) :
    ∀ rem attempt cycles slept, 1 ≤ rem →
      cycles + 1 ≤ (reconnectGo env m attempt rem cycles slept).cycles := by
  intro rem
  cases rem with
  | zero => omega
  | succ r =>
    intro a c s _
    simp only [reconnectGo]
    rcases hstep : reconnectStep env m a with ⟨sl, os⟩
    cases os with
    | none =>
      simp only
      exact reconnectGo_cycles_ge env m r (a + 1) (c + 1) _
    | some pr =>
      rcases pr with ⟨succ, au⟩
      simp only
      omega

/-- the loop body when the up output of the attempt matches the
`user_code=` pattern: an immediate auth-required exit. -/
theorem reconnectStep_url (env : ReconnectEnv) (m a : ℕ) (rd ru : CmdResult)
    (u : List Char)
    (hdown : (env.att a).down = RunOutcome.ok rd)
    (hup : (env.att a).up = RunOutcome.ok ru)
    (hurl : reSearch urlPat1 (ru.stdout ++ ru.stderr) = some u) :
    reconnectStep env m a = (2, some (false, some u)) := by
  simp only [reconnectStep]
  rw [hdown, hup]
  simp only [marker_of_url hurl, if_true, hurl]

/-- the loop body when the up output carries the auth marker but no
extractable URL and the attempt cannot succeed: fall through. -/
theorem reconnectStep_continue (env : ReconnectEnv) (m a : ℕ) (rd ru : CmdResult)
    (hdown : (env.att a).down = RunOutcome.ok rd)
    (hup : (env.att a).up = RunOutcome.ok ru)
    (hurl : reSearch urlPat1 (ru.stdout ++ ru.stderr) = none)
    (hcont : ru.returncode ≠ 0 ∨ is_vpn_connected (env.att a).probe = false) :
    (reconnectStep env m a).2 = none := by
  simp only [reconnectStep]
  rw [hdown, hup]
  have hif : (if hasAuthMarker (ru.stdout ++ ru.stderr) then
      reSearch urlPat1 (ru.stdout ++ ru.stderr) else none) = none := by
    split
    · exact hurl
    · rfl
  simp only [hif]
  rcases hcont with hrc | hprobe
  · simp [hrc]
  · by_cases hrc0 : ru.returncode = 0
    · simp [hrc0, hprobe]
    · simp [hrc0]

/-- the only sources of a `some` auth URL in the loop body: a pattern
match on the up output, or `get_auth_url` from the timeout handler. -/
theorem reconnectStep_authUrl (env : ReconnectEnv) (m a : ℕ)
    {sl : ℕ} {succ : Bool} {u : List Char}
    (h : reconnectStep env m a = (sl, some (succ, some u))) :
    (∃ ru, (env.att a).up = RunOutcome.ok ru ∧
      reSearch urlPat1 (ru.stdout ++ ru.stderr) = some u) ∨
    get_auth_url env.loginTimeout = some u := by
  cases hdown : (env.att a).down with
  | err => simp [reconnectStep, hdown] at h
  | timeout =>
    rcases hOT : (if a = m then get_auth_url env.loginTimeout else none) with _ | v
    · simp only [reconnectStep, hdown, hOT] at h
      simp at h
    · simp only [reconnectStep, hdown, hOT, Prod.mk.injEq, Option.some.injEq] at h
      obtain ⟨-, -, rfl⟩ := h
      split at hOT
      · exact Or.inr hOT
      · exact absurd hOT (by simp)
  | ok rd =>
    cases hup : (env.att a).up with
    | err => simp [reconnectStep, hdown, hup] at h
    | timeout =>
      rcases hOT : (if a = m then get_auth_url env.loginTimeout else none) with _ | v
      · simp only [reconnectStep, hdown, hup, hOT] at h
        simp at h
      · simp only [reconnectStep, hdown, hup, hOT, Prod.mk.injEq,
          Option.some.injEq] at h
        obtain ⟨-, -, rfl⟩ := h
        split at hOT
        · exact Or.inr hOT
        · exact absurd hOT (by simp)
    | ok ru =>
      cases hre : reSearch urlPat1 (ru.stdout ++ ru.stderr) with
      | some v =>
        have hif : (if hasAuthMarker (ru.stdout ++ ru.stderr) = true then
            reSearch urlPat1 (ru.stdout ++ ru.stderr) else none) = some v := by
          rw [if_pos (marker_of_url hre)]
          exact hre
        simp only [reconnectStep, hdown, hup, hif, Prod.mk.injEq,
          Option.some.injEq] at h
        obtain ⟨-, -, rfl⟩ := h
        exact Or.inl ⟨ru, rfl, hre⟩
      | none =>
        have hif : (if hasAuthMarker (ru.stdout ++ ru.stderr) = true then
            reSearch urlPat1 (ru.stdout ++ ru.stderr) else none) = none := by
          split
          · exact hre
          · rfl
        simp only [reconnectStep, hdown, hup, hif] at h
        split at h
        · simp at h
        · split at h
          · simp at h
          · simp at h

/-- one loop iteration that returns. -/
theorem reconnectGo_exit (env : ReconnectEnv) (m attempt rem cycles slept sl : ℕ)
    (succ : Bool) (au : Option (List Char))
    (hstep : reconnectStep env m attempt = (sl, some (succ, au))) :
    reconnectGo env m attempt (rem + 1) cycles slept =
      { success := succ, attempt := attempt, authUrl := au,
        cycles := cycles + 1, sleepSecs := slept + sl } := by
  simp only [reconnectGo, hstep]

/-- one loop iteration that falls through to the next attempt. -/
theorem reconnectGo_continue_eq (env : ReconnectEnv)
    (m attempt rem cycles slept sl : ℕ)
    (hstep : reconnectStep env m attempt = (sl, none)) :
    reconnectGo env m attempt (rem + 1) cycles slept =
      reconnectGo env m (attempt + 1) rem (cycles + 1) (slept + sl) := by
  simp only [reconnectGo, hstep]

theorem reconnectGo_authUrl (env : ReconnectEnv) (m : ℕ) :
    ∀ rem attempt cycles slept u,
      (reconnectGo env m attempt rem cycles slept).authUrl = some u →
      (∃ a ru, (env.att a).up = RunOutcome.ok ru ∧
        reSearch urlPat1 (ru.stdout ++ ru.stderr) = some u) ∨
      get_auth_url env.loginTimeout = some u ∨
      get_auth_url env.loginFinal = some u := by
  intro rem
  induction rem with
  | zero =>
    intro a c s u h
    simp only [reconnectGo] at h
    exact Or.inr (Or.inr h)
  | succ r ih =>
    intro a c s u h
    simp only [reconnectGo] at h
    rcases hstep : reconnectStep env m a with ⟨sl, os⟩
    rw [hstep] at h
    cases os with
    | none =>
      simp only at h
      exact ih (a + 1) (c + 1) _ u h
    | some pr =>
      rcases pr with ⟨succ, au⟩
      simp only at h
      subst h
      rcases reconnectStep_authUrl env m a hstep with h1 | h2
      · exact Or.inl ⟨a, h1⟩
      · exact Or.inr (Or.inl h2)

/-! ## Claim theorems: the Reconnect Controller -/

/-- C4: for every call of `reconnect_vpn` with `max_retries = 3`, if the
combined stdout/stderr of the `netbird up` command on attempt 1 matches
the login-URL pattern (an https URL with a `user_code` query parameter),
then `reconnect_vpn` returns immediately with `success = False`,
`attempt_number = 1` and that extracted URL, performing no second down/up
cycle (and sleeping only the 2 seconds after `netbird down`). -/
theorem C4_auth_url_stops_retries (env : ReconnectEnv) (rd ru : CmdResult)
    (u : List Char)
    (hdown : (env.att 1).down = RunOutcome.ok rd)
    (hup : (env.att 1).up = RunOutcome.ok ru)
    (hurl : reSearch urlPat1 (ru.stdout ++ ru.stderr) = some u) :
    reconnect_vpn env 3 =
      { success := false, attempt := 1, authUrl := some u,
        cycles := 1, sleepSecs := 2 } := by
  have hstep := reconnectStep_url env 3 1 rd ru u hdown hup hurl
  have h2 := reconnectGo_exit env 3 1 2 0 0 2 false (some u) hstep
  simpa [reconnect_vpn] using h2

/-- C4 witness: a concrete environment whose attempt-1 up output carries
a login URL. -/
theorem C4_witness :
    reconnect_vpn exReconAuth 3 =
      { success := false, attempt := 1,
        authUrl := some "https://a.io/d?user_code=AB-1".data,
        cycles := 1, sleepSecs := 2 } :=
  C4_auth_url_stops_retries exReconAuth ⟨0, [], []⟩
    ⟨0, "See https://a.io/d?user_code=AB-1 now".data, []⟩
    "https://a.io/d?user_code=AB-1".data rfl rfl (by decide)

/-- C5: for every `max_retries ≥ 1` and every sequence of outcomes of
the external commands and probes, `reconnect_vpn` terminates (it is a
total function of the outcome environment), performs at most
`max_retries` down/up cycles, and spends at most `10 * max_retries`
seconds in its fixed `time.sleep` calls. -/
theorem C5_reconnect_bounded (env : ReconnectEnv) (n : ℕ) (hn : 1 ≤ n) :
    (reconnect_vpn env n).cycles ≤ n ∧
    (reconnect_vpn env n).sleepSecs ≤ 10 * n := by
  have h := reconnectGo_bounds env n n 1 0 0
  simpa [reconnect_vpn] using h

/-- C5 witness: the bounds at `max_retries = 3` under an environment in
which every external call raises. -/
theorem C5_witness :
    (reconnect_vpn exReconFail 3).cycles ≤ 3 ∧
    (reconnect_vpn exReconFail 3).sleepSecs ≤ 30 := by
  have h := C5_reconnect_bounded exReconFail 3 (by norm_num)
  simpa using h

/-- C9: a non-absent `auth_url` is returned only when a string matching
the login-URL pattern was actually extracted (from an up output by the
first pattern, or by `get_auth_url` from one of the two `netbird login`
call sites); and when the attempt-1 up output contains an authorization
marker but no URL matching the pattern, `reconnect_vpn(max_retries=3)`
does not stop there: if that attempt cannot succeed (non-zero up exit or
a failed probe), a second down/up cycle occurs. -/
theorem C9_no_auth_stop_without_url :
    (∀ (env : ReconnectEnv) (m : ℕ) (u : List Char),
        (reconnect_vpn env m).authUrl = some u →
        (∃ a ru, (env.att a).up = RunOutcome.ok ru ∧
          reSearch urlPat1 (ru.stdout ++ ru.stderr) = some u) ∨
        get_auth_url env.loginTimeout = some u ∨
        get_auth_url env.loginFinal = some u) ∧
    (∀ (env : ReconnectEnv) (rd ru : CmdResult),
        (env.att 1).down = RunOutcome.ok rd →
        (env.att 1).up = RunOutcome.ok ru →
        hasAuthMarker (ru.stdout ++ ru.stderr) = true →
        reSearch urlPat1 (ru.stdout ++ ru.stderr) = none →
        (ru.returncode ≠ 0 ∨ is_vpn_connected (env.att 1).probe = false) →
        2 ≤ (reconnect_vpn env 3).cycles) := by
  constructor
  · intro env m u h
    exact reconnectGo_authUrl env m m 1 0 0 u (by simpa [reconnect_vpn] using h)
  · intro env rd ru hdown hup hmk hre hcont
    have hstep2 : (reconnectStep env 3 1).2 = none :=
      reconnectStep_continue env 3 1 rd ru hdown hup hre hcont
    rcases hstepv : reconnectStep env 3 1 with ⟨sl, os⟩
    rw [hstepv] at hstep2
    simp only at hstep2
    subst hstep2
    have h1 := reconnectGo_continue_eq env 3 1 2 0 0 sl hstepv
    have h2 : reconnect_vpn env 3 = reconnectGo env 3 2 2 1 (0 + sl) := by
      simpa [reconnect_vpn] using h1
    rw [h2]
    have h3 := reconnectGo_cycles_ge_one env 3 2 2 1 (0 + sl) (by norm_num)
    omega

/-- C9 witness: with marker-but-no-URL output and a non-zero up exit on
attempt 1, a second cycle occurs. -/
theorem C9_witness : 2 ≤ (reconnect_vpn exReconMarkerNoUrl 3).cycles :=
  C9_no_auth_stop_without_url.2 exReconMarkerNoUrl ⟨0, [], []⟩
    ⟨1, "SSO login required".data, []⟩ rfl rfl (by decide) (by decide)
    (Or.inl (by decide))

/-! ### Prober facts -/

theorem pingLoop_true_iff (p : String → RunOutcome) :
    ∀ hs : List String,
      ((pingLoop p hs).1 = true ↔ ∃ h, h ∈ hs ∧ responds p h = true) := by
  intro hs
  induction hs with
  | nil => simp [pingLoop]
  | cons h rest ih =>
    cases hp : p h with
    | ok r =>
      by_cases hrc : r.returncode = 0
      · have hr : responds p h = true := by simp [responds, hp, hrc]
        simp [pingLoop, hp, hrc, hr]
      · have hr : responds p h = false := by simp [responds, hp, hrc]
        simp only [pingLoop, hp, if_neg hrc, ih, List.mem_cons]
        constructor
        · rintro ⟨h2, hm, hresp⟩
          exact ⟨h2, Or.inr hm, hresp⟩
        · rintro ⟨h2, hm | hm, hresp⟩
          · rw [hm] at hresp; rw [hresp] at hr; simp at hr
          · exact ⟨h2, hm, hresp⟩
    | timeout =>
      have hr : responds p h = false := by simp [responds, hp]
      simp only [pingLoop, hp, ih, List.mem_cons]
      constructor
      · rintro ⟨h2, hm, hresp⟩
        exact ⟨h2, Or.inr hm, hresp⟩
      · rintro ⟨h2, hm | hm, hresp⟩
        · rw [hm] at hresp; rw [hresp] at hr; simp at hr
        · exact ⟨h2, hm, hresp⟩
    | err =>
      have hr : responds p h = false := by simp [responds, hp]
      simp only [pingLoop, hp, ih, List.mem_cons]
      constructor
      · rintro ⟨h2, hm, hresp⟩
        exact ⟨h2, Or.inr hm, hresp⟩
      · rintro ⟨h2, hm | hm, hresp⟩
        · rw [hm] at hresp; rw [hresp] at hr; simp at hr
        · exact ⟨h2, hm, hresp⟩

theorem pingLoop_all_fail (p : String → RunOutcome) :
    ∀ hs : List String, (∀ h ∈ hs, responds p h = false) →
      pingLoop p hs = (false, hs) := by
  intro hs
  induction hs with
  | nil => intro _; rfl
  | cons h rest ih =>
    intro hall
    have hr : responds p h = false := hall h (by simp)
    have htail := ih (fun h2 hm => hall h2 (by simp [hm]))
    cases hp : p h with
    | ok r =>
      have hrc : ¬ r.returncode = 0 := by
        intro hc
        rw [responds, hp] at hr
        simp [hc] at hr
      simp [pingLoop, hp, hrc, htail]
    | timeout => simp [pingLoop, hp, htail]
    | err => simp [pingLoop, hp, htail]

theorem pingLoop_first (p : String → RunOutcome) :
    ∀ (pre : List String) (h : String) (post : List String),
      (∀ h2 ∈ pre, responds p h2 = false) → responds p h = true →
      pingLoop p (pre ++ h :: post) = (true, pre ++ [h]) := by
  intro pre
  induction pre with
  | nil =>
    intro h post _ hresp
    cases hp : p h with
    | ok r =>
      rw [responds, hp] at hresp
      simp only [decide_eq_true_eq] at hresp
      simp [pingLoop, hp, hresp]
    | timeout => rw [responds, hp] at hresp; simp at hresp
    | err => rw [responds, hp] at hresp; simp at hresp
  | cons h1 rest ih =>
    intro h post hall hresp
    have hr1 : responds p h1 = false := hall h1 (by simp)
    have htail := ih h post (fun h2 hm => hall h2 (by simp [hm])) hresp
    cases hp : p h1 with
    | ok r =>
      have hrc : ¬ r.returncode = 0 := by
        intro hc
        rw [responds, hp] at hr1
        simp [hc] at hr1
      simp [pingLoop, hp, hrc, htail]
    | timeout => simp [pingLoop, hp, htail]
    | err => simp [pingLoop, hp, htail]

/-! ## Claim theorem: the Status Prober -/

/-- C8: `is_vpn_connected` is the conjunction of the client-status check
and the reachability check and never raises (it is total in the outcome
environment); a timeout or missing binary in the client-status check
yields false; the reachability check succeeds iff some host of the fixed
ordered list responds, pinging exactly the prefix up to and including the
first responder, and fails having pinged every host when none responds. -/
theorem C8_prober (e : ProbeEnv) :
    (is_vpn_connected e =
      (check_vpn_netbird_status e.status && check_vpn_connectivity e.ping)) ∧
    ((e.status = RunOutcome.timeout ∨ e.status = RunOutcome.err) →
      check_vpn_netbird_status e.status = false) ∧
    (check_vpn_connectivity e.ping = true ↔
      ∃ h, h ∈ VPN_HOSTS ∧ responds e.ping h = true) ∧
    (∀ (pre : List String) (h : String) (post : List String),
      VPN_HOSTS = pre ++ h :: post →
      (∀ h2 ∈ pre, responds e.ping h2 = false) → responds e.ping h = true →
      pingLoop e.ping VPN_HOSTS = (true, pre ++ [h])) ∧
    ((∀ h ∈ VPN_HOSTS, responds e.ping h = false) →
      pingLoop e.ping VPN_HOSTS = (false, VPN_HOSTS)) := by
  refine ⟨rfl, ?_, ?_, ?_, ?_⟩
  · rintro (hs | hs) <;> rw [hs] <;> rfl
  · exact pingLoop_true_iff e.ping VPN_HOSTS
  · intro pre h post hsplit hall hresp
    rw [hsplit]
    exact pingLoop_first e.ping pre h post hall hresp
  · exact pingLoop_all_fail e.ping VPN_HOSTS

/-- C8 witness: under the all-timeout probe environment the reachability
check pings both hosts and fails, and the combined check is false. -/
theorem C8_witness :
    pingLoop exProbeDown.ping VPN_HOSTS = (false, VPN_HOSTS) ∧
    is_vpn_connected exProbeDown =
      (check_vpn_netbird_status exProbeDown.status &&
        check_vpn_connectivity exProbeDown.ping) :=
  ⟨(C8_prober exProbeDown).2.2.2.2 (by decide), (C8_prober exProbeDown).1⟩

/-! ### State-file facts -/

theorem lookup_isSome_of_mem (k : String) :
    ∀ l : List (String × JValue),
      k ∈ l.map Prod.fst → (List.lookup k l).isSome = true := by
  intro l
  induction l with
  | nil => simp
  | cons kv rest ih =>
    rcases kv with ⟨k2, v⟩
    intro hm
    by_cases hk : k = k2
    · simp [List.lookup, hk]
    · have hk2 : (k == k2) = false := by simpa using hk
      simp only [List.map_cons, List.mem_cons] at hm
      rcases hm with hm | hm
      · exact absurd hm hk
      · simp only [List.lookup, hk2]
        exact ih hm

theorem mem_dictKeys (k : String) :
    ∀ m : List (String × JValue), (k ∈ dictKeys m ↔ k ∈ m.map Prod.fst) := by
  intro m
  induction m with
  | nil => simp [dictKeys]
  | cons kv rest ih =>
    rcases kv with ⟨k2, v⟩
    simp only [dictKeys, List.map_cons, List.mem_cons, List.mem_filter,
      bne_iff_ne, ne_eq, ih]
    constructor
    · rintro (h | ⟨h, -⟩)
      · exact Or.inl h
      · exact Or.inr h
    · rintro (h | h)
      · exact Or.inl h
      · by_cases hk : k = k2
        · exact Or.inl hk
        · exact Or.inr ⟨h, hk⟩

theorem map_fst_pyDict (m : List (String × JValue)) :
    (pyDict m).map Prod.fst = dictKeys m := by
  simp [pyDict, List.map_map, Function.comp_def]

/-! ## Claim theorems: state persistence -/

/-- C7: saving a fully-populated `MonitorRecord` (timestamps as strings
or absent — an absent timestamp is persisted as JSON null, which is the
only form the monitor itself produces since `load_state` materialises
all five keys — status a string, counters integers) with `save_state`
and loading it back with `load_state` yields the record saved: the
`{**default_state, **state}` merge leaves a complete record unchanged. -/
theorem C7_state_roundtrip (r : MonitorRecord) :
    load_state (save_state (recordKvs r)) = recordKvs r := rfl

/-- C10: `load_state` is total and never raises; for every state of the
file system the returned dict contains all five persisted keys, and an
absent, unreadable/unparsable, or non-object file yields exactly the
defaults. -/
theorem C10_load_state_total (fs : FileState) :
    (∀ k ∈ stateKeys, (List.lookup k (load_state fs)).isSome = true) ∧
    (fs = FileState.absent → load_state fs = default_state_kvs) ∧
    (fs = FileState.corrupt → load_state fs = default_state_kvs) ∧
    (∀ v, fs = FileState.json v → (∀ kvs, v ≠ JValue.obj kvs) →
      load_state fs = default_state_kvs) := by
  refine ⟨?_, ?_, ?_, ?_⟩
  · intro k hk
    have hk5 : k ∈ default_state_kvs.map Prod.fst := by
      simpa [stateKeys, default_state_kvs] using hk
    cases fs with
    | absent => exact lookup_isSome_of_mem k default_state_kvs hk5
    | corrupt => exact lookup_isSome_of_mem k default_state_kvs hk5
    | json v =>
      cases v with
      | obj kvs =>
        have hmem : k ∈ (pyDict (default_state_kvs ++ kvs)).map Prod.fst := by
          rw [map_fst_pyDict]
          rw [mem_dictKeys]
          simp only [List.map_append, List.mem_append]
          exact Or.inl hk5
        exact lookup_isSome_of_mem k _ hmem
      | null => exact lookup_isSome_of_mem k default_state_kvs hk5
      | bool b => exact lookup_isSome_of_mem k default_state_kvs hk5
      | num n => exact lookup_isSome_of_mem k default_state_kvs hk5
      | str s => exact lookup_isSome_of_mem k default_state_kvs hk5
      | arr a => exact lookup_isSome_of_mem k default_state_kvs hk5
  · rintro rfl; rfl
  · rintro rfl; rfl
  · rintro v rfl hv
    cases v with
    | obj kvs => exact absurd rfl (hv kvs)
    | null => rfl
    | bool b => rfl
    | num n => rfl
    | str s => rfl
    | arr a => rfl

/-- C10 witness: an absent state file loads as the defaults. -/
theorem C10_witness : load_state FileState.absent = default_state_kvs :=
  (C10_load_state_total FileState.absent).2.1 rfl

/-! ### Notifier facts -/

theorem delaySeq_ge (j : ℕ) : 10 ≤ delaySeq j := by
  unfold delaySeq
  refine le_min ?_ (by norm_num)
  have h1 : (1 : ℚ) ≤ (3 / 2 : ℚ) ^ j := one_le_pow₀ (by norm_num)
  linarith

theorem delaySeq_succ (j : ℕ) :
    min (delaySeq j * (3 / 2)) 60 = delaySeq (j + 1) := by
  unfold delaySeq
  rw [min_mul_of_nonneg _ _ (by norm_num : (0:ℚ) ≤ 3 / 2)]
  rw [min_assoc]
  have h90 : (60 : ℚ) * (3 / 2) = 90 := by norm_num
  rw [h90]
  have hm : min (90 : ℚ) 60 = 60 := by norm_num
  rw [hm, pow_succ]
  ring_nf

theorem elapsedAt_step (env : SendEnv) (j : ℕ) :
    elapsedAt env j ≤ elapsedAt env (j + 1) := by
  have h1 := env.dur_nonneg (j + 1)
  have h2 := delaySeq_ge j
  simp only [elapsedAt]
  linarith

theorem elapsedAt_mono (env : SendEnv) {j k : ℕ} (h : j ≤ k) :
    elapsedAt env j ≤ elapsedAt env k := by
  induction k with
  | zero => simp_all
  | succ n ih =>
    rcases Nat.lt_or_ge j (n + 1) with hlt | hge
    · exact le_trans (ih (by omega)) (elapsedAt_step env n)
    · have : j = n + 1 := by omega
      rw [this]

theorem elapsedAt_ge (env : SendEnv) : ∀ j : ℕ, 10 * (j : ℚ) ≤ elapsedAt env j := by
  intro j
  induction j with
  | zero => simp [elapsedAt]
  | succ n ih =>
    have h1 := env.dur_nonneg (n + 1)
    have h2 := delaySeq_ge n
    simp only [elapsedAt]
    push_cast
    linarith

theorem sendLoop_success (env : SendEnv) :
    ∀ (d j : ℕ) (e dl : ℚ) (hd : 10 ≤ dl),
      e = elapsedAt env j → dl = delaySeq j →
      elapsedAt env (j + d) ≤ 900 →
      env.result (j + d + 1) = TransportResult.response true →
      (∀ i, j + 1 ≤ i → i ≤ j + d → env.result i ≠ TransportResult.response true) →
      (sendLoop env 900 e dl hd (j + 1)).delivered = true ∧
      (sendLoop env 900 e dl hd (j + 1)).attempts = j + d + 1 := by
  intro d
  induction d with
  | zero =>
    intro j e dl hd he hdl hbud hres hfail
    have hne : ¬ e > 900 := by rw [he]; simpa using hbud
    rw [sendLoop]
    rw [if_neg hne]
    have hres0 : env.result (j + 1) = TransportResult.response true := by
      simpa using hres
    rw [hres0]
    exact ⟨rfl, by simp⟩
  | succ d ih =>
    intro j e dl hd he hdl hbud hres hfail
    have hne : ¬ e > 900 := by
      rw [he]
      have := elapsedAt_mono env (Nat.le_add_right j (d + 1))
      simp only [not_lt]
      linarith
    have hne1 : env.result (j + 1) ≠ TransportResult.response true :=
      hfail (j + 1) (le_refl _) (by omega)
    rw [sendLoop]
    rw [if_neg hne]
    have he' : e + env.dur (j + 1) + dl = elapsedAt env (j + 1) := by
      rw [he, hdl]; simp [elapsedAt]
    have hdl' : min (dl * (3 / 2)) 60 = delaySeq (j + 1) := by
      rw [hdl]; exact delaySeq_succ j
    have hbud' : elapsedAt env (j + 1 + d) ≤ 900 := by
      have : j + 1 + d = j + (d + 1) := by omega
      rw [this]; exact hbud
    have hres' : env.result (j + 1 + d + 1) = TransportResult.response true := by
      have : j + 1 + d + 1 = j + (d + 1) + 1 := by omega
      rw [this]; exact hres
    have hfail' : ∀ i, j + 1 + 1 ≤ i → i ≤ j + 1 + d →
        env.result i ≠ TransportResult.response true := by
      intro i h1 h2
      exact hfail i (by omega) (by omega)
    have hrec := ih (j + 1) (e + env.dur (j + 1) + dl) (min (dl * (3 / 2)) 60)
      (le_min (by linarith) (by norm_num)) he' hdl' hbud' hres' hfail'
    cases hrv : env.result (j + 1) with
    | response b =>
      cases b with
      | true => exact absurd hrv hne1
      | false =>
        simp only
        refine ⟨hrec.1, ?_⟩
        rw [hrec.2]; omega
    | badJson =>
      simp only
      refine ⟨hrec.1, ?_⟩
      rw [hrec.2]; omega
    | timeout =>
      simp only
      refine ⟨hrec.1, ?_⟩
      rw [hrec.2]; omega
    | exn =>
      simp only
      refine ⟨hrec.1, ?_⟩
      rw [hrec.2]; omega

theorem sendLoop_fail (env : SendEnv)
    (hfail : ∀ k, env.result k ≠ TransportResult.response true) :
    ∀ (n j : ℕ) (e dl : ℚ) (hd : 10 ≤ dl),
      e = elapsedAt env j → dl = delaySeq j → 91 ≤ j + n →
      (sendLoop env 900 e dl hd (j + 1)).delivered = false := by
  intro n
  induction n with
  | zero =>
    intro j e dl hd he hdl hj
    have hgt : e > 900 := by
      rw [he]
      have h1 := elapsedAt_ge env j
      have hj' : (91 : ℚ) ≤ (j : ℚ) := by exact_mod_cast (by omega : 91 ≤ j)
      linarith
    rw [sendLoop, if_pos hgt]
  | succ n ih =>
    intro j e dl hd he hdl hj
    by_cases hgt : e > 900
    · rw [sendLoop, if_pos hgt]
    · rw [sendLoop, if_neg hgt]
      have he' : e + env.dur (j + 1) + dl = elapsedAt env (j + 1) := by
        rw [he, hdl]; simp [elapsedAt]
      have hdl' : min (dl * (3 / 2)) 60 = delaySeq (j + 1) := by
        rw [hdl]; exact delaySeq_succ j
      have hrec := ih (j + 1) (e + env.dur (j + 1) + dl) (min (dl * (3 / 2)) 60)
        (le_min (by linarith) (by norm_num)) he' hdl' (by omega)
      cases hrv : env.result (j + 1) with
      | response b =>
        cases b with
        | true => exact absurd hrv (hfail (j + 1))
        | false => simpa using hrec
      | badJson => simpa using hrec
      | timeout => simpa using hrec
      | exn => simpa using hrec

theorem sendLoop_attempts (env : SendEnv) :
    ∀ (n j : ℕ) (e dl : ℚ) (hd : 10 ≤ dl),
      e = elapsedAt env j → dl = delaySeq j → 91 ≤ j + n → j ≤ 91 →
      (sendLoop env 900 e dl hd (j + 1)).attempts ≤ 92 := by
  intro n
  induction n with
  | zero =>
    intro j e dl hd he hdl hj hj91
    have hgt : e > 900 := by
      rw [he]
      have h1 := elapsedAt_ge env j
      have hj' : (91 : ℚ) ≤ (j : ℚ) := by exact_mod_cast (by omega : 91 ≤ j)
      linarith
    rw [sendLoop, if_pos hgt]
    simp only
    omega
  | succ n ih =>
    intro j e dl hd he hdl hj hj91
    by_cases hgt : e > 900
    · rw [sendLoop, if_pos hgt]; simp only; omega
    · have hj90 : j ≤ 90 := by
        by_contra hcon
        have hj91' : 91 ≤ j := by omega
        have h1 := elapsedAt_ge env j
        have hj' : (91 : ℚ) ≤ (j : ℚ) := by exact_mod_cast hj91'
        rw [he] at hgt
        push_neg at hgt
        linarith
      rw [sendLoop, if_neg hgt]
      have he' : e + env.dur (j + 1) + dl = elapsedAt env (j + 1) := by
        rw [he, hdl]; simp [elapsedAt]
      have hdl' : min (dl * (3 / 2)) 60 = delaySeq (j + 1) := by
        rw [hdl]; exact delaySeq_succ j
      have hrec := ih (j + 1) (e + env.dur (j + 1) + dl) (min (dl * (3 / 2)) 60)
        (le_min (by linarith) (by norm_num)) he' hdl' (by omega) (by omega)
      cases hrv : env.result (j + 1) with
      | response b =>
        cases b with
        | true => simp only; omega
        | false => simpa using hrec
      | badJson => simpa using hrec
      | timeout => simpa using hrec
      | exn => simpa using hrec

theorem sendLoop_sleeps (env : SendEnv) :
    ∀ (i j : ℕ) (e dl : ℚ) (hd : 10 ≤ dl) (x : ℚ),
      e = elapsedAt env j → dl = delaySeq j →
      ((sendLoop env 900 e dl hd (j + 1)).sleeps.get? i = some x) →
      x = delaySeq (j + i) := by
  intro i
  induction i with
  | zero =>
    intro j e dl hd x he hdl hget
    rw [sendLoop] at hget
    by_cases hgt : e > 900
    · rw [if_pos hgt] at hget; simp at hget
    · rw [if_neg hgt] at hget
      cases hrv : env.result (j + 1) with
      | response b =>
        cases b with
        | true => rw [hrv] at hget; simp at hget
        | false =>
          rw [hrv] at hget
          simp only [List.get?] at hget
          rw [hdl] at hget
          simpa using hget.symm
      | badJson =>
        rw [hrv] at hget
        simp only [List.get?] at hget
        rw [hdl] at hget
        simpa using hget.symm
      | timeout =>
        rw [hrv] at hget
        simp only [List.get?] at hget
        rw [hdl] at hget
        simpa using hget.symm
      | exn =>
        rw [hrv] at hget
        simp only [List.get?] at hget
        rw [hdl] at hget
        simpa using hget.symm
  | succ i ih =>
    intro j e dl hd x he hdl hget
    rw [sendLoop] at hget
    by_cases hgt : e > 900
    · rw [if_pos hgt] at hget; simp at hget
    · rw [if_neg hgt] at hget
      have he' : e + env.dur (j + 1) + dl = elapsedAt env (j + 1) := by
        rw [he, hdl]; simp [elapsedAt]
      have hdl' : min (dl * (3 / 2)) 60 = delaySeq (j + 1) := by
        rw [hdl]; exact delaySeq_succ j
      have hidx : j + 1 + i = j + (i + 1) := by omega
      cases hrv : env.result (j + 1) with
      | response b =>
        cases b with
        | true => rw [hrv] at hget; simp at hget
        | false =>
          rw [hrv] at hget
          simp only [List.get?] at hget
          have := ih (j + 1) _ _ (le_min (by linarith) (by norm_num)) x he' hdl' hget
          rwa [hidx] at this
      | badJson =>
        rw [hrv] at hget
        simp only [List.get?] at hget
        have := ih (j + 1) _ _ (le_min (by linarith) (by norm_num)) x he' hdl' hget
        rwa [hidx] at this
      | timeout =>
        rw [hrv] at hget
        simp only [List.get?] at hget
        have := ih (j + 1) _ _ (le_min (by linarith) (by norm_num)) x he' hdl' hget
        rwa [hidx] at this
      | exn =>
        rw [hrv] at hget
        simp only [List.get?] at hget
        have := ih (j + 1) _ _ (le_min (by linarith) (by norm_num)) x he' hdl' hget
        rwa [hidx] at this

theorem sendLoop_budget (env : SendEnv) :
    ∀ (d j : ℕ) (e dl : ℚ) (hd : 10 ≤ dl),
      e = elapsedAt env j → dl = delaySeq j →
      (∀ i, j + 1 ≤ i → i ≤ j + d → env.result i ≠ TransportResult.response true) →
      900 < elapsedAt env (j + d) →
      (sendLoop env 900 e dl hd (j + 1)).delivered = false := by
  intro d
  induction d with
  | zero =>
    intro j e dl hd he hdl _ hbud
    have hgt : e > 900 := by rw [he]; simpa using hbud
    rw [sendLoop, if_pos hgt]
  | succ d ih =>
    intro j e dl hd he hdl hfail hbud
    by_cases hgt : e > 900
    · rw [sendLoop, if_pos hgt]
    · rw [sendLoop, if_neg hgt]
      have hne1 : env.result (j + 1) ≠ TransportResult.response true :=
        hfail (j + 1) (le_refl _) (by omega)
      have he' : e + env.dur (j + 1) + dl = elapsedAt env (j + 1) := by
        rw [he, hdl]; simp [elapsedAt]
      have hdl' : min (dl * (3 / 2)) 60 = delaySeq (j + 1) := by
        rw [hdl]; exact delaySeq_succ j
      have hfail' : ∀ i, j + 1 + 1 ≤ i → i ≤ j + 1 + d →
          env.result i ≠ TransportResult.response true := by
        intro i h1 h2
        exact hfail i (by omega) (by omega)
      have hbud' : 900 < elapsedAt env (j + 1 + d) := by
        have : j + 1 + d = j + (d + 1) := by omega
        rw [this]; exact hbud
      have hrec := ih (j + 1) (e + env.dur (j + 1) + dl) (min (dl * (3 / 2)) 60)
        (le_min (by linarith) (by norm_num)) he' hdl' hfail' hbud'
      cases hrv : env.result (j + 1) with
      | response b =>
        cases b with
        | true => exact absurd hrv hne1
        | false => simpa using hrec
      | badJson => simpa using hrec
      | timeout => simpa using hrec
      | exn => simpa using hrec

theorem send_telegram_alert_eq (env : SendEnv) (mt : ℚ) :
    send_telegram_alert env true mt = sendLoop env mt 0 10 (by norm_num) 1 := by
  rfl

/-! ## Claim theorem: the Notifier -/

/-- C6: `send_telegram_alert` (with credentials configured and the
default 900-second budget) terminates for every sequence of transport
responses and never blocks indefinitely — it makes at most 92 attempts;
its k-th backoff sleep is `min (10 * 1.5^k) 60` seconds (initial 10,
multiplier 1.5, cap 60); it returns True as soon as a response carries
`ok: true` within the budget, reporting that attempt number; and when no
response carrying `ok: true` has arrived it returns False once the
elapsed wall-clock time exceeds the budget. -/
theorem C6_send_telegram_alert :
    (∀ (env : SendEnv) (i : ℕ) (x : ℚ),
        (send_telegram_alert env true 900).sleeps.get? i = some x →
        x = min (10 * (3 / 2 : ℚ) ^ i) 60) ∧
    (∀ (env : SendEnv) (d : ℕ),
        env.result (d + 1) = TransportResult.response true →
        (∀ i, 1 ≤ i → i ≤ d → env.result i ≠ TransportResult.response true) →
        elapsedAt env d ≤ 900 →
        (send_telegram_alert env true 900).delivered = true ∧
        (send_telegram_alert env true 900).attempts = d + 1) ∧
    (∀ env : SendEnv, (∀ k, env.result k ≠ TransportResult.response true) →
        (send_telegram_alert env true 900).delivered = false) ∧
    (∀ (env : SendEnv) (d : ℕ),
        (∀ i, 1 ≤ i → i ≤ d → env.result i ≠ TransportResult.response true) →
        900 < elapsedAt env d →
        (send_telegram_alert env true 900).delivered = false) ∧
    (∀ env : SendEnv, (send_telegram_alert env true 900).attempts ≤ 92) := by
  have h10 : ∀ env : SendEnv, (10 : ℚ) = delaySeq 0 := by
    intro env; norm_num [delaySeq]
  have h0 : ∀ env : SendEnv, (0 : ℚ) = elapsedAt env 0 := by
    intro env; rfl
  refine ⟨?_, ?_, ?_, ?_, ?_⟩
  · intro env i x hget
    rw [send_telegram_alert_eq] at hget
    have := sendLoop_sleeps env i 0 0 10 (by norm_num) x (h0 env) (h10 env) hget
    simpa [delaySeq] using this
  · intro env d hres hfail hbud
    have h := sendLoop_success env d 0 0 10 (by norm_num) (h0 env) (h10 env)
      (by simpa using hbud) (by simpa using hres)
      (fun i h1 h2 => hfail i (by omega) (by omega))
    rw [send_telegram_alert_eq]
    exact ⟨h.1, by rw [h.2]; omega⟩
  · intro env hfail
    rw [send_telegram_alert_eq]
    exact sendLoop_fail env hfail 91 0 0 10 (by norm_num) (h0 env) (h10 env)
      (by omega)
  · intro env d hfail hbud
    rw [send_telegram_alert_eq]
    exact sendLoop_budget env d 0 0 10 (by norm_num) (h0 env) (h10 env)
      (fun i h1 h2 => hfail i (by omega) (by omega)) (by simpa using hbud)
  · intro env
    rw [send_telegram_alert_eq]
    exact sendLoop_attempts env 91 0 0 10 (by norm_num) (h0 env) (h10 env)
      (by omega) (by omega)

/-- C6 witness: a transport that acknowledges at once is reported as a
success on attempt 1. -/
theorem C6_witness :
    (send_telegram_alert envC6 true 900).delivered = true ∧
    (send_telegram_alert envC6 true 900).attempts = 1 := by
  have h := C6_send_telegram_alert.2.1 envC6 0 rfl
    (fun i h1 h2 => absurd (h1.trans h2) (by omega))
    (by norm_num [elapsedAt])
  simpa using h

/-! ### Main-routine facts -/

theorem mainRun_preserves (env : MainEnv) (st : MonState)
    (h : MonInv st) : MonInv (mainRun env st).state := by
  obtain ⟨hreach, hcf⟩ := h
  cases hp : is_vpn_connected env.probe with
  | true =>
    rcases hreach with hs | hs | hs | hs
    · simp [mainRun, hp, hs, MonInv, StatusReachable, hcf (Or.inl hs)]
    · simp [mainRun, hp, hs, MonInv, StatusReachable, hcf (Or.inr hs)]
    · simp [mainRun, hp, hs, MonInv, StatusReachable]
    · simp [mainRun, hp, hs, MonInv, StatusReachable]
  | false =>
    rcases hreach with hs | hs | hs | hs <;>
    cases hcan : should_send_notification st env.now 30 <;>
    cases hlog : get_auth_url env.login <;>
    cases hsucc : (reconnect_vpn env.recon 3).success <;>
    cases haurl : (reconnect_vpn env.recon 3).authUrl <;>
      simp [mainRun, hp, hs, hcan, hlog, hsucc, haurl, MonInv, StatusReachable]

theorem foldl_preserves :
    ∀ (envs : List MainEnv) (s : MonState), MonInv s →
      MonInv (envs.foldl (fun s e => (mainRun e s).state) s) := by
  intro envs
  induction envs with
  | nil => intro s hs; exact hs
  | cons e rest ih =>
    intro s hs
    exact ih _ (mainRun_preserves e s hs)

/-! ## Claim theorems: the main routine -/

/-- C3: for every sequence of monitor invocations starting from the
default persisted record, and all probe/reconnect outcomes in each run,
the state written at the end satisfies: `last_status = "connected"`
implies `consecutive_failures = 0`. -/
theorem C3_connected_zero_failures (envs : List MainEnv)
    (h : (runSeq envs).last_status = "connected") :
    (runSeq envs).consecutive_failures = 0 := by
  have hinv : MonInv (runSeq envs) := by
    apply foldl_preserves envs default_state
    constructor
    · right; left; rfl
    · intro _; rfl
  exact hinv.2 (Or.inl h)

/-- C3 witness: a single connected run from the default record. -/
theorem C3_witness :
    (runSeq [envC3]).last_status = "connected" ∧
    (runSeq [envC3]).consecutive_failures = 0 :=
  ⟨by decide, C3_connected_zero_failures [envC3] (by decide)⟩

/-- C2 counterexample: a run whose initial probe reports disconnected
and whose Reconnect Controller then succeeds persists
`last_status = "connected"` — connectivity is up at the end of the run —
yet exits with code 1, refuting the claim that such a run exits 0. -/
theorem C2_counterexample :
    (mainRun envC2 default_state).state.last_status = "connected" ∧
    (mainRun envC2 default_state).exitCode = 1 := by
  constructor
  · decide
  · decide

/-- C2 (amended): the exit code is 0 exactly when the initial
connectivity probe at the start of the run reported connected, and 1
otherwise; the probe is not re-run after a successful reconnect, so such
a run still exits 1. -/
theorem C2_exit_code_initial_probe (env : MainEnv) (st : MonState) :
    (mainRun env st).exitCode = if is_vpn_connected env.probe then 0 else 1 := by
  cases hp : is_vpn_connected env.probe with
  | true => simp [mainRun, hp]
  | false =>
    cases hsucc : (reconnect_vpn env.recon 3).success <;>
    cases haurl : (reconnect_vpn env.recon 3).authUrl <;>
    by_cases hprev : st.last_status = "auth_required" <;>
      simp [mainRun, hp, hsucc, haurl, hprev]

/-- C1 counterexample: with the VPN up again one minute after a
notification was sent during a disconnection, the main routine sends the
"recovered" notification although the 30-minute cooldown is still
running — refuting the claim that every notification call site is gated
by the cooldown. -/
theorem C1_counterexample :
    (mainRun envC1 stC1).notifs = [NotifEvent.recovered] ∧
    should_send_notification stC1 envC1.now 30 = false := by
  constructor
  · decide
  · have hq : ¬ ((30 : ℚ) ≤ ((60 : ℚ) - 0) / 60) := by norm_num
    simp [should_send_notification, stC1, envC1, hq]

/-- C1 (amended): the disconnect, auth-required (both call sites) and
reconnect-failure notifications are sent only when the 30-minute
cooldown from the persisted `last_notification_time` has elapsed, but
the "recovered" and "reconnect success" notifications are sent
unconditionally on their transitions; so while the cooldown is still
running the main routine sends none of the three gated notification
kinds. -/
theorem C1_cooldown_gated_sites (env : MainEnv) (st : MonState)
    (h : should_send_notification st env.now 30 = false) :
    (NotifEvent.disconnect ∉ (mainRun env st).notifs ∧
     NotifEvent.authRequired ∉ (mainRun env st).notifs ∧
     NotifEvent.reconnectFailure ∉ (mainRun env st).notifs) ∧
    (is_vpn_connected env.probe = true →
      (st.last_status = "disconnected" ∨ st.last_status = "auth_required") →
      NotifEvent.recovered ∈ (mainRun env st).notifs) ∧
    (is_vpn_connected env.probe = false → st.last_status ≠ "auth_required" →
      (reconnect_vpn env.recon 3).success = true →
      NotifEvent.reconnectSuccess ∈ (mainRun env st).notifs) := by
  cases hp : is_vpn_connected env.probe with
  | true =>
    by_cases hprev : st.last_status = "disconnected" ∨
        st.last_status = "auth_required" <;>
      simp [mainRun, hp, hprev]
  | false =>
    by_cases hprev : st.last_status = "auth_required"
    · cases hlog : get_auth_url env.login <;>
        simp [mainRun, hp, hprev, hlog, h]
    · cases hsucc : (reconnect_vpn env.recon 3).success <;>
      cases haurl : (reconnect_vpn env.recon 3).authUrl <;>
        simp [mainRun, hp, hprev, hsucc, haurl, h]

/-- C1 witness: during a still-running cooldown with the VPN down and
reconnection failing, no gated notification is sent (while the ungated
sites remain governed only by their transitions). -/
theorem C1_witness :
    (NotifEvent.disconnect ∉ (mainRun envC1w stC1).notifs ∧
     NotifEvent.authRequired ∉ (mainRun envC1w stC1).notifs ∧
     NotifEvent.reconnectFailure ∉ (mainRun envC1w stC1).notifs) ∧
    (is_vpn_connected envC1w.probe = true →
      (stC1.last_status = "disconnected" ∨ stC1.last_status = "auth_required") →
      NotifEvent.recovered ∈ (mainRun envC1w stC1).notifs) ∧
    (is_vpn_connected envC1w.probe = false →
      stC1.last_status ≠ "auth_required" →
      (reconnect_vpn envC1w.recon 3).success = true →
      NotifEvent.reconnectSuccess ∈ (mainRun envC1w stC1).notifs) :=
  C1_cooldown_gated_sites envC1w stC1 (by
    have hq : ¬ ((30 : ℚ) ≤ ((60 : ℚ) - 0) / 60) := by norm_num
    simp [should_send_notification, stC1, envC1w, hq])

end VpnMonitor
